import Mathlib

/-!
Verification of the Aegis autonomous treasury agent's decision and learning
engine against its specification.

The Python modules `agent/memory.py`, `agent/learner.py` and
`agent/coordinator.py` are shallowly embedded below.  Python floats are
modelled as exact rationals (`ℚ`) wherever the code only performs field
arithmetic and comparisons; the UCB1 score, which uses `math.log` and
`math.sqrt`, is modelled over the reals (`ℝ`), extended with `⊤` for
Python's `float(inf)`.  Python `dict`s are modelled as insertion-ordered
association lists: assignment `d[k] = v` replaces in place or appends
(`ainsert`), and `d.get(k, dflt)` is `(alookup l k).getD dflt`.
-/

namespace Aegis

/-- A Python dict key as it occurs in `WorkerMemory.task_type_scores`: an
`int` while the process is live, but a `str` after a JSON save/load cycle
(`json.dump` stringifies object keys).  Python equality never identifies
`1` with `"1"`, which `DecidableEq` of this sum type reflects. -/
inductive PyKey where
  | pint : ℤ → PyKey
  | pstr : String → PyKey
  deriving DecidableEq, Repr

/-- Python `str(key)` as applied by `json.dump` to a dict key. -/
def PyKey.save : PyKey → PyKey
  | .pint n => .pstr (toString n)
  | .pstr s => .pstr s

/-- Embeds `d.get(k)` on an insertion-ordered association list. -/
def alookup {α β : Type} [DecidableEq α] : List (α × β) → α → Option β
  | [], _ => none
  | (k', v') :: rest, k => if k' = k then some v' else alookup rest k

/-- Embeds `d[k] = v` on an insertion-ordered association list: replace the
existing binding in place, or append a new binding at the end. -/
def ainsert {α β : Type} [DecidableEq α] : List (α × β) → α → β → List (α × β)
  | [], k, v => [(k, v)]
  | (k', v') :: rest, k, v =>
      if k' = k then (k, v) :: rest else (k', v') :: ainsert rest k v

/-- Embeds `memory.py` — `class TaskOutcome(Enum)`. -/
inductive TaskOutcome where
  | SUCCESS
  | FAILURE
  | TIMEOUT
  | CANCELLED
  deriving DecidableEq, Repr

/-- Embeds `memory.py` — the string `outcome.value` of a `TaskOutcome`. -/
def TaskOutcome.value : TaskOutcome → String
  | .SUCCESS => "success"
  | .FAILURE => "failure"
  | .TIMEOUT => "timeout"
  | .CANCELLED => "cancelled"

/-- Embeds `memory.py` — `@dataclass class WorkerMemory`. -/
structure WorkerMemory where
  address : String
  total_tasks : ℕ
  successful_tasks : ℕ
  failed_tasks : ℕ
  total_earnings : ℚ
  average_completion_time : ℚ
  reliability_score : ℚ
  task_type_scores : List (PyKey × ℚ)
  last_task_at : ℚ
  deriving DecidableEq, Repr

/-- Embeds `WorkerMemory(address=a)` with the dataclass field defaults. -/
def initWorker (address : String) : WorkerMemory :=
  { address := address
    total_tasks := 0
    successful_tasks := 0
    failed_tasks := 0
    total_earnings := 0
    average_completion_time := 0
    reliability_score := 0.5
    task_type_scores := []
    last_task_at := 0 }

/-- Embeds `self.task_type_scores.get(task_type, 0.5)` with a live (`int`) key. -/
def scoreGet (scores : List (PyKey × ℚ)) (task_type : ℤ) : ℚ :=
  (alookup scores (PyKey.pint task_type)).getD 0.5

/-- Embeds `memory.py` — `WorkerMemory.success_rate`. -/
def WorkerMemory.success_rate (w : WorkerMemory) : ℚ :=
  if w.total_tasks = 0 then 0.5 else (w.successful_tasks : ℚ) / w.total_tasks

/-- Embeds `memory.py` — `WorkerMemory.update`.  `now` stands for `time.time()`. -/
def WorkerMemory.update (w : WorkerMemory) (outcome : TaskOutcome) (task_type : ℤ)
    (earnings : ℚ) (completion_time : ℚ) (now : ℚ) : WorkerMemory :=
  let w := { w with total_tasks := w.total_tasks + 1, last_task_at := now }
  if outcome = TaskOutcome.SUCCESS then
    let w := { w with
      successful_tasks := w.successful_tasks + 1
      total_earnings := w.total_earnings + earnings }
    let w := { w with
      average_completion_time :=
        if w.average_completion_time = 0 then completion_time
        else 0.7 * w.average_completion_time + 0.3 * completion_time }
    let current_score := scoreGet w.task_type_scores task_type
    let w := { w with
      task_type_scores :=
        ainsert w.task_type_scores (PyKey.pint task_type) (min 1 (current_score + 0.1)) }
    { w with reliability_score := min 1 (w.reliability_score + 0.05) }
  else
    let w := { w with failed_tasks := w.failed_tasks + 1 }
    let current_score := scoreGet w.task_type_scores task_type
    let w := { w with
      task_type_scores :=
        ainsert w.task_type_scores (PyKey.pint task_type) (max 0 (current_score - 0.15)) }
    { w with reliability_score := max 0 (w.reliability_score - 0.1) }

/-- Embeds `memory.py` — `@dataclass class TaskMemory`. -/
structure TaskMemory where
  task_id : ℤ
  task_type : ℤ
  worker_address : String
  proposed_payment : ℚ
  actual_payment : ℚ
  outcome : String
  created_at : ℚ
  completed_at : ℚ
  completion_time : ℚ
  verification_result : Option Bool
  deriving DecidableEq, Repr

/-- Embeds `memory.py` — `@dataclass class StrategyMetrics`. -/
structure StrategyMetrics where
  total_decisions : ℕ
  successful_allocations : ℕ
  failed_allocations : ℕ
  total_spent : ℚ
  total_value_delivered : ℚ
  average_cost_per_success : ℚ
  roi : ℚ
  recent_success_rate : ℚ
  historical_success_rate : ℚ
  cost_efficiency_trend : List ℚ
  decision_quality_score : ℚ
  deriving DecidableEq, Repr

/-- Embeds `StrategyMetrics()` with the dataclass field defaults. -/
def initMetrics : StrategyMetrics :=
  { total_decisions := 0
    successful_allocations := 0
    failed_allocations := 0
    total_spent := 0
    total_value_delivered := 0
    average_cost_per_success := 0
    roi := 0
    recent_success_rate := 0
    historical_success_rate := 0
    cost_efficiency_trend := []
    decision_quality_score := 0 }

/-- Embeds `memory.py` — `StrategyMetrics.update`. -/
def StrategyMetrics.update (m : StrategyMetrics) (success : Bool) (cost : ℚ)
    (value : ℚ) : StrategyMetrics :=
  let m : StrategyMetrics :=
    { m with total_decisions := m.total_decisions + 1, total_spent := m.total_spent + cost }
  let m : StrategyMetrics :=
    if success then
      { m with successful_allocations := m.successful_allocations + 1
               total_value_delivered := m.total_value_delivered + value }
    else
      { m with failed_allocations := m.failed_allocations + 1 }
  let m : StrategyMetrics :=
    if m.successful_allocations > 0 then
      let avg := m.total_spent / (m.successful_allocations : ℚ)
      let trend := m.cost_efficiency_trend ++ [avg]
      { m with average_cost_per_success := avg
               cost_efficiency_trend := if trend.length > 50 then trend.drop 1 else trend }
    else m
  let m : StrategyMetrics :=
    if m.total_spent > 0 then { m with roi := m.total_value_delivered / m.total_spent } else m
  let m : StrategyMetrics :=
    if m.total_decisions > 0 then
      { m with historical_success_rate := (m.successful_allocations : ℚ) / m.total_decisions }
    else m
  let success_factor : ℚ := m.historical_success_rate
  let efficiency_factor : ℚ := if m.roi > (0 : ℚ) then min 1 (m.roi / 2) else 0
  { m with decision_quality_score := 0.6 * success_factor + 0.4 * efficiency_factor }

/-- An entry of `AgentMemory.decision_history` (a Python dict built in
`StrategyLearner.make_decision`, with a `timestamp` added by
`record_decision`). -/
structure DecisionRecord where
  task_id : ℤ
  task_type : ℤ
  worker : String
  payment : ℚ
  confidence : ℝ
  exploration : Bool
  timestamp : ℚ

/-- The in-memory state of `memory.py`'s `AgentMemory` (the `data_dir`
path and logging are I/O plumbing, not state). -/
structure AgentMemoryState where
  workers : List (String × WorkerMemory)
  tasks : List (ℤ × TaskMemory)
  strategy_metrics : StrategyMetrics
  decision_history : List DecisionRecord

/-- The state of a fresh `AgentMemory` before `_load` runs. -/
def initialMemory : AgentMemoryState :=
  { workers := [], tasks := [], strategy_metrics := initMetrics, decision_history := [] }

/-- Embeds `memory.py` — `AgentMemory.get_worker` (get-or-create, lower-cased
key).  Returns the record together with the possibly-extended state. -/
def AgentMemoryState.get_worker (m : AgentMemoryState) (address : String) :
    WorkerMemory × AgentMemoryState :=
  let address := address.toLower
  match alookup m.workers address with
  | some w => (w, m)
  | none =>
      let w := initWorker address
      (w, { m with workers := ainsert m.workers address w })

/-- Embeds `memory.py` — `AgentMemory.record_decision` (append, keep the last
1000 entries; `_save` itself does not change in-memory state). -/
def AgentMemoryState.record_decision (m : AgentMemoryState) (d : DecisionRecord) :
    AgentMemoryState :=
  let hist := m.decision_history ++ [d]
  { m with decision_history := if hist.length > 1000 then hist.drop (hist.length - 1000) else hist }

/-- The shape of the JSON document written by `AgentMemory._save`:
`workers` values keep their dataclass fields but `json.dump` has turned
every `task_type_scores` key into a string; `tasks` is keyed by `str(k)`
(done explicitly in `_save`). -/
structure SavedMemory where
  workers : List (String × WorkerMemory)
  tasks : List (String × TaskMemory)
  strategy_metrics : StrategyMetrics
  decision_history : List DecisionRecord

/-- Embeds `asdict(worker)` as serialized by `json.dump`: the only lossy spot is
that object keys of the nested `task_type_scores` dict become strings. -/
def saveWorker (w : WorkerMemory) : WorkerMemory :=
  { w with task_type_scores := w.task_type_scores.map (fun p => (p.1.save, p.2)) }

/-- Embeds `memory.py` — `AgentMemory._save`, as the JSON document it writes. -/
def AgentMemoryState.save (m : AgentMemoryState) : SavedMemory :=
  { workers := m.workers.map (fun p => (p.1, saveWorker p.2))
    tasks := m.tasks.map (fun p => (toString p.1, p.2))
    strategy_metrics := m.strategy_metrics
    decision_history := m.decision_history.drop (m.decision_history.length - 100) }

/-- The restore loop of `AgentMemory._load` applied to a successfully
parsed JSON document: workers are rebuilt with `WorkerMemory(**data)` —
the string score keys are passed through untouched — while task keys are
explicitly converted back with `int(task_id)`. -/
def restoreMemory (d : SavedMemory) : AgentMemoryState :=
  { workers := d.workers
    tasks := d.tasks.map (fun p => (p.1.toInt?.getD 0, p.2))
    strategy_metrics := d.strategy_metrics
    decision_history := d.decision_history }

/-- Embeds `memory.py` — `AgentMemory._load` as run from `__init__` on the fresh
state: `none` models a missing `memory.json` (early return);
`some (.error e)` models an unreadable/corrupt file, whose exception is
caught, logged and discarded (`except Exception`); `some (.ok d)` models a
successful parse.  In no case is an error reported to the caller. -/
def AgentMemoryState.load_file (fresh : AgentMemoryState)
    (file : Option (Except String SavedMemory)) : AgentMemoryState :=
  match file with
  | none => fresh
  | some (Except.error _) => fresh
  | some (Except.ok d) => restoreMemory d

/-- Embeds `learner.py` — the state of `class MultiArmedBandit`.  The stored
numbers are exact rationals; the transcendental part of the UCB1 score is
computed over `ℝ` in `ucbScore` below. -/
structure BanditState where
  exploration_constant : ℚ
  worker_pulls : List (String × ℕ)
  worker_rewards : List (String × ℚ)
  total_pulls : ℕ

/-- Embeds `MultiArmedBandit()` with the default `exploration_constant=2.0`. -/
def initBandit : BanditState :=
  { exploration_constant := 2, worker_pulls := [], worker_rewards := [], total_pulls := 0 }

/-- The worker-initialization loop at the top of `select_worker`:
`for worker in available_workers: if worker not in self.worker_pulls:
self.worker_pulls[worker] = 0; self.worker_rewards[worker] = 0.0`. -/
def initWorkers (st : BanditState) (available_workers : List String) : BanditState :=
  available_workers.foldl
    (fun s w =>
      if (alookup s.worker_pulls w).isSome then s
      else { s with worker_pulls := ainsert s.worker_pulls w 0
                    worker_rewards := ainsert s.worker_rewards w 0 })
    st

/-- The UCB1 score of one worker in `select_worker`, computed after the
global pull counter has been incremented and the worker entries have been
initialized.  A zero-pull worker gets `float(inf)`, modelled by `⊤`. -/
noncomputable def ucbScore (st : BanditState) (worker_memory : List (String × WorkerMemory))
    (task_type : ℤ) (worker : String) : WithTop ℝ :=
  let pulls := (alookup st.worker_pulls worker).getD 0
  if pulls = 0 then ⊤
  else
    let avg_reward : ℚ := (alookup st.worker_rewards worker).getD 0 / (pulls : ℚ)
    let avg_reward : ℚ :=
      match alookup worker_memory worker with
      | some memory => 0.7 * avg_reward + 0.3 * scoreGet memory.task_type_scores task_type
      | none => avg_reward
    ((avg_reward : ℝ) +
      (st.exploration_constant : ℝ) * Real.sqrt (Real.log st.total_pulls / (pulls : ℝ)) : ℝ)

/-- Embeds `scores.sort(key=..., reverse=True); scores[0]`: Python's sort is
stable, so the first element of the descending sort is the first element
of the original list attaining the maximal score.  `firstMax` computes
exactly that: the accumulator is replaced only on a strictly greater
score. -/
noncomputable def firstMax (acc : String × WithTop ℝ) :
    List (String × WithTop ℝ) → String × WithTop ℝ
  | [] => acc
  | x :: rest => firstMax (if acc.2 < x.2 then x else acc) rest

/-- Embeds `min(1.0, confidence / 2)` applied to a possibly infinite score
(`min(1.0, float(inf)/2) = 1.0`). -/
noncomputable def normConf : WithTop ℝ → ℝ
  | ⊤ => 1
  | (s : ℝ) => min 1 (s / 2)

/-- Embeds `learner.py` — `MultiArmedBandit.select_worker`.  Returns the
`(worker, confidence)` pair together with the state after the call (the
method mutates `total_pulls` and lazily initializes worker entries). -/
noncomputable def BanditState.select_worker (st : BanditState)
    (available_workers : List String) (worker_memory : List (String × WorkerMemory))
    (task_type : ℤ) : (Option String × ℝ) × BanditState :=
  match available_workers with
  | [] => ((none, 0), st)
  | w :: ws =>
      let st : BanditState := { st with total_pulls := st.total_pulls + 1 }
      let st : BanditState := initWorkers st (w :: ws)
      let best := firstMax (w, ucbScore st worker_memory task_type w)
        (ws.map (fun v => (v, ucbScore st worker_memory task_type v)))
      ((some best.1, normConf best.2), st)

/-- Embeds `learner.py` — `MultiArmedBandit.update`. -/
def BanditState.update (st : BanditState) (worker : String) (reward : ℚ) : BanditState :=
  { st with
    worker_pulls := ainsert st.worker_pulls worker ((alookup st.worker_pulls worker).getD 0 + 1)
    worker_rewards :=
      ainsert st.worker_rewards worker ((alookup st.worker_rewards worker).getD 0 + reward) }

/-- Embeds `learner.py` — the state of `class PaymentOptimizer`:
`payment_models` maps a task type to `(base_multiplier, adjustment)`. -/
structure PaymentOptimizer where
  learning_rate : ℚ
  payment_models : List (ℤ × (ℚ × ℚ))
  deriving DecidableEq, Repr

/-- Embeds `learner.py` — `PaymentOptimizer.get_optimal_payment`. -/
def PaymentOptimizer.get_optimal_payment (opt : PaymentOptimizer) (task_type : ℤ)
    (max_payment : ℚ) (worker_reliability : ℚ) : ℚ :=
  let model := (alookup opt.payment_models task_type).getD (0.7, 0)
  let base_payment := max_payment * model.1
  let reliability_bonus := (worker_reliability - 0.5) * 0.2 * max_payment
  let optimal := base_payment + reliability_bonus + model.2
  max 0.1 (min max_payment optimal)

/-- Embeds `learner.py` — `PaymentOptimizer.update`. -/
def PaymentOptimizer.update (opt : PaymentOptimizer) (task_type : ℤ) (payment : ℚ)
    (success : Bool) (max_payment : ℚ) : PaymentOptimizer :=
  let model := (alookup opt.payment_models task_type).getD (0.7, 0)
  let gradient : ℚ :=
    if success then -opt.learning_rate * (payment / max_payment) * 0.1
    else opt.learning_rate * (1 - payment / max_payment) * 0.2
  { opt with payment_models := ainsert opt.payment_models task_type (model.1, model.2 + gradient) }

/-- Embeds `learner.py` — `@dataclass class Decision`. -/
structure Decision where
  task_id : ℤ
  task_type : ℤ
  selected_worker : String
  proposed_payment : ℚ
  confidence : ℝ
  reasoning : String

/-- Embeds `learner.py` — the mutable fields of `class StrategyLearner` (the
`memory` reference is passed separately to the methods that use it). -/
structure StrategyLearner where
  exploration_rate : ℚ
  bandit : BanditState
  payment_optimizer : PaymentOptimizer
  decisions_made : ℕ
  successful_decisions : ℕ

/-- Embeds `StrategyLearner(memory, exploration_rate, learning_rate)`. -/
def initLearner (exploration_rate learning_rate : ℚ) : StrategyLearner :=
  { exploration_rate := exploration_rate
    bandit := initBandit
    payment_optimizer := { learning_rate := learning_rate, payment_models := [] }
    decisions_made := 0
    successful_decisions := 0 }

/-- Embeds `learner.py` — `StrategyLearner.make_decision`.  The two random draws
are passed in explicitly: `explore_draw` models
`random.random() < self.exploration_rate` and `random_index` models the
index chosen by `random.choice(available_workers)`.  `now` is the
`time.time()` stamp added by `record_decision`.  Returns the decision (if
any) with the updated learner and memory states. -/
noncomputable def StrategyLearner.make_decision (sl : StrategyLearner)
    (memory : AgentMemoryState) (task_id : ℤ) (task_type : ℤ) (max_payment : ℚ)
    (available_workers : List String) (explore_draw : Bool) (random_index : ℕ)
    (now : ℚ) : Option Decision × StrategyLearner × AgentMemoryState :=
  if available_workers = [] then (none, sl, memory)
  else
    let sl : StrategyLearner := { sl with decisions_made := sl.decisions_made + 1 }
    let choice : String × ℝ × String × StrategyLearner :=
      if explore_draw then
        ((available_workers.get? (random_index % available_workers.length)).getD "",
          0.3, "Exploration: random worker selection", sl)
      else
        let result := sl.bandit.select_worker available_workers memory.workers task_type
        (result.1.1.getD "", result.1.2,
          "Exploitation: UCB1 score-based selection", { sl with bandit := result.2 })
    let selected_worker := choice.1
    let confidence := choice.2.1
    let reasoning := choice.2.2.1
    let sl := choice.2.2.2
    let wm := memory.get_worker selected_worker
    let worker_memory := wm.1
    let memory := wm.2
    let proposed_payment :=
      sl.payment_optimizer.get_optimal_payment task_type max_payment
        worker_memory.reliability_score
    let decision : Decision :=
      { task_id := task_id
        task_type := task_type
        selected_worker := selected_worker
        proposed_payment := proposed_payment
        confidence := confidence
        reasoning := reasoning }
    let memory := memory.record_decision
      { task_id := task_id
        task_type := task_type
        worker := selected_worker
        payment := proposed_payment
        confidence := confidence
        exploration := reasoning.startsWith "Exploration"
        timestamp := now }
    (some decision, sl, memory)

/-- Embeds `learner.py` — `StrategyLearner.learn_from_outcome`. -/
def StrategyLearner.learn_from_outcome (sl : StrategyLearner) (task_type : ℤ)
    (worker : String) (payment : ℚ) (max_payment : ℚ) (success : Bool) : StrategyLearner :=
  let reward : ℚ := if success then 1 - payment / max_payment * 0.3 else -0.5
  let sl : StrategyLearner :=
    if success then { sl with successful_decisions := sl.successful_decisions + 1 } else sl
  let sl : StrategyLearner := { sl with bandit := sl.bandit.update worker reward }
  let sl : StrategyLearner :=
    { sl with payment_optimizer := sl.payment_optimizer.update task_type payment success max_payment }
  if sl.decisions_made > 100 ∧ sl.exploration_rate > 0.05 then
    { sl with exploration_rate := sl.exploration_rate * 0.999 }
  else sl

/-- Embeds `coordinator.py` — the hybrid decision inside
`CoordinatorAgent._verify_task`: `ai` is `some (ai_verified, ai_confidence)`
when the advisory service produced an opinion and `none` when it is absent
or failed (in which case `ai_verified` stays `None`); `rule_verified` is
the result of `_apply_verification_rule`. -/
def hybridVerdict (ai : Option (Bool × ℚ)) (rule_verified : Bool) : Bool :=
  match ai with
  | some (ai_verified, ai_confidence) =>
      if ai_confidence ≥ 0.7 then ai_verified
      else if ai_confidence ≥ 0.5 then ai_verified && rule_verified
      else rule_verified
  | none => rule_verified

/-- Python's keyword-argument binding check: a call `f(**kwargs)` raises
`TypeError: unexpected keyword argument` unless every supplied keyword
names a declared parameter. -/
def pyAcceptsKwargs (params kwargs : List String) : Bool :=
  kwargs.all (fun k => params.contains k)

/-- The declared parameters of `StrategyLearner.make_decision`
(`learner.py`, line 175), excluding `self`. -/
def make_decision_params : List String :=
  ["task_id", "task_type", "max_payment", "available_workers"]

/-- The keyword arguments `CoordinatorAgent._process_task` passes to
`self.learner.make_decision` (`coordinator.py`, lines 258-264).  The
`ai_scores` keyword is always present — it is `None` when no advisory
scores were gathered. -/
def coordinator_decide_kwargs : List String :=
  ["task_id", "task_type", "max_payment", "available_workers", "ai_scores"]

/-- Bounds on the scores a worker record can hold: reliability in `[0,1]`
and every per-category score in `[0,1]`. -/
def WorkerMemory.bounded (w : WorkerMemory) : Prop :=
  (0 ≤ w.reliability_score ∧ w.reliability_score ≤ 1) ∧
    ∀ p ∈ w.task_type_scores, 0 ≤ p.2 ∧ p.2 ≤ 1

/-- One folded step of `WorkerMemory.update` over a list of outcome
tuples `(outcome, task_type, earnings, completion_time, now)`. -/
def applyOutcomes (w : WorkerMemory) (l : List (TaskOutcome × ℤ × ℚ × ℚ × ℚ)) : WorkerMemory :=
  l.foldl (fun acc u => acc.update u.1 u.2.1 u.2.2.1 u.2.2.2.1 u.2.2.2.2) w

/-- A concrete Outcome-Memory worker with a learned score `0.6` for task
category `1`. -/
def sampleWorker : WorkerMemory :=
  { initWorker "0xa" with task_type_scores := [(PyKey.pint 1, 0.6)] }

/-- A concrete Outcome-Memory state holding `sampleWorker`. -/
def sampleMemory : AgentMemoryState :=
  { initialMemory with workers := [("0xa", sampleWorker)] }

/-- A concrete bandit state in which worker `"0xa"` has already been
pulled once (with a large accumulated reward) and `"0xb"` has never been
pulled. -/
def c4Bandit : BanditState :=
  { exploration_constant := 2
    worker_pulls := [("0xa", 1)]
    worker_rewards := [("0xa", 5)]
    total_pulls := 1 }

/-! ### Association-list lemmas -/

theorem alookup_ainsert_self {α β : Type} [DecidableEq α] (l : List (α × β)) (k : α) (v : β) :
    alookup (ainsert l k v) k = some v := by
  induction l with
  | nil => simp [ainsert, alookup]
  | cons p rest ih =>
      by_cases h : p.1 = k
      · simp [ainsert, alookup, h]
      · simpa [ainsert, alookup, h] using ih

theorem alookup_ainsert_ne {α β : Type} [DecidableEq α] (l : List (α × β)) (k k' : α) (v : β)
    (h : k' ≠ k) : alookup (ainsert l k v) k' = alookup l k' := by
  have hk : ¬ k = k' := fun hk => h hk.symm
  induction l with
  | nil => simp [ainsert, alookup, hk]
  | cons p rest ih =>
      by_cases hp : p.1 = k
      · have hpk : ¬ p.1 = k' := by rw [hp]; exact hk
        simp [ainsert, alookup, hp, hk, hpk]
      · by_cases hp' : p.1 = k' <;> simp [ainsert, alookup, hp, hp', ih, h, hk]

theorem mem_ainsert {α β : Type} [DecidableEq α] {l : List (α × β)} {k : α} {v : β}
    {p : α × β} (hp : p ∈ ainsert l k v) : p = (k, v) ∨ p ∈ l := by
  induction l with
  | nil => simpa [ainsert] using hp
  | cons q rest ih =>
      by_cases hq : q.1 = k
      · rcases (by simpa [ainsert, hq] using hp : p = (k, v) ∨ p ∈ rest) with h | h
        · exact Or.inl h
        · exact Or.inr (List.mem_cons_of_mem _ h)
      · rcases (by simpa [ainsert, hq] using hp : p = q ∨ p ∈ ainsert rest k v) with h | h
        · exact Or.inr (by simp [h])
        · rcases ih h with h' | h'
          · exact Or.inl h'
          · exact Or.inr (List.mem_cons_of_mem _ h')

theorem alookup_mem {α β : Type} [DecidableEq α] {l : List (α × β)} {k : α} {v : β}
    (h : alookup l k = some v) : (k, v) ∈ l := by
  induction l with
  | nil => simp [alookup] at h
  | cons p rest ih =>
      by_cases hp : p.1 = k
      · have hv : v = p.2 := by simpa [alookup, hp] using h.symm
        subst hv
        exact List.mem_cons.mpr (Or.inl (by rw [← hp]))
      · exact List.mem_cons_of_mem _ (ih (by simpa [alookup, hp] using h))

/-! ### `WorkerMemory.update` field characterizations -/

theorem update_success_eq (w : WorkerMemory) (t : ℤ) (e c now : ℚ) :
    w.update TaskOutcome.SUCCESS t e c now =
      { w with
        total_tasks := w.total_tasks + 1
        last_task_at := now
        successful_tasks := w.successful_tasks + 1
        total_earnings := w.total_earnings + e
        average_completion_time :=
          if w.average_completion_time = 0 then c
          else 0.7 * w.average_completion_time + 0.3 * c
        task_type_scores :=
          ainsert w.task_type_scores (PyKey.pint t) (min 1 (scoreGet w.task_type_scores t + 0.1))
        reliability_score := min 1 (w.reliability_score + 0.05) } := rfl

theorem update_nonsuccess_eq (w : WorkerMemory) (o : TaskOutcome)
    (ho : o ≠ TaskOutcome.SUCCESS) (t : ℤ) (e c now : ℚ) :
    w.update o t e c now =
      { w with
        total_tasks := w.total_tasks + 1
        last_task_at := now
        failed_tasks := w.failed_tasks + 1
        task_type_scores :=
          ainsert w.task_type_scores (PyKey.pint t) (max 0 (scoreGet w.task_type_scores t - 0.15))
        reliability_score := max 0 (w.reliability_score - 0.1) } := by
  cases o with
  | SUCCESS => exact absurd rfl ho
  | FAILURE => rfl
  | TIMEOUT => rfl
  | CANCELLED => rfl

theorem scoreGet_bounds {w : WorkerMemory} (hw : w.bounded) (t : ℤ) :
    0 ≤ scoreGet w.task_type_scores t ∧ scoreGet w.task_type_scores t ≤ 1 := by
  unfold scoreGet
  cases h : alookup w.task_type_scores (PyKey.pint t) with
  | none => norm_num
  | some v => simpa using hw.2 _ (alookup_mem h)

theorem update_bounded {w : WorkerMemory} (hw : w.bounded) (o : TaskOutcome) (t : ℤ)
    (e c now : ℚ) : (w.update o t e c now).bounded := by
  have hs := scoreGet_bounds hw t
  by_cases ho : o = TaskOutcome.SUCCESS
  · subst ho
    rw [update_success_eq]
    refine ⟨⟨le_min (by norm_num) (by linarith [hw.1.1]), min_le_left _ _⟩, ?_⟩
    intro p hp
    rcases mem_ainsert hp with h | h
    · subst h
      constructor
      · exact le_min (by norm_num) (by linarith [hs.1])
      · exact min_le_left _ _
    · exact hw.2 _ h
  · rw [update_nonsuccess_eq w o ho]
    refine ⟨⟨le_max_left _ _, max_le (by norm_num) (by linarith [hw.1.2])⟩, ?_⟩
    intro p hp
    rcases mem_ainsert hp with h | h
    · subst h
      constructor
      · exact le_max_left _ _
      · exact max_le (by norm_num) (by linarith [hs.2])
    · exact hw.2 _ h

theorem applyOutcomes_bounded {w : WorkerMemory} (hw : w.bounded)
    (l : List (TaskOutcome × ℤ × ℚ × ℚ × ℚ)) : (applyOutcomes w l).bounded := by
  induction l generalizing w with
  | nil => exact hw
  | cons u rest ih => exact ih (update_bounded hw u.1 u.2.1 u.2.2.1 u.2.2.2.1 u.2.2.2.2)

theorem scoreGet_ainsert_self (scores : List (PyKey × ℚ)) (t : ℤ) (v : ℚ) :
    scoreGet (ainsert scores (PyKey.pint t) v) t = v := by
  simp [scoreGet, alookup_ainsert_self]

/-- C8: `WorkerMemory.update` keeps `reliability_score` in `[0,1]` under
every sequence of outcomes; one SUCCESS sets it to `min 1 (r + 0.05)`
(clamped above at 1, non-decreasing) and one FAILURE to
`max 0 (r - 0.1)` (clamped below at 0, non-increasing); the per-category
score of the updated type is nudged by `+0.1` (clamped at 1) on SUCCESS
and `-0.15` (clamped at 0) on FAILURE, and all per-category scores stay
in `[0,1]`. -/
theorem C8_update_bounds (w : WorkerMemory) (hw : w.bounded)
    (l : List (TaskOutcome × ℤ × ℚ × ℚ × ℚ)) (t : ℤ) (e c now : ℚ) :
    (applyOutcomes w l).bounded ∧
    (w.update TaskOutcome.SUCCESS t e c now).reliability_score
        = min 1 (w.reliability_score + 0.05) ∧
    w.reliability_score ≤ (w.update TaskOutcome.SUCCESS t e c now).reliability_score ∧
    (w.update TaskOutcome.FAILURE t e c now).reliability_score
        = max 0 (w.reliability_score - 0.1) ∧
    (w.update TaskOutcome.FAILURE t e c now).reliability_score ≤ w.reliability_score ∧
    scoreGet (w.update TaskOutcome.SUCCESS t e c now).task_type_scores t
        = min 1 (scoreGet w.task_type_scores t + 0.1) ∧
    scoreGet (w.update TaskOutcome.FAILURE t e c now).task_type_scores t
        = max 0 (scoreGet w.task_type_scores t - 0.15) := by
  have hfail := update_nonsuccess_eq w TaskOutcome.FAILURE (by decide) t e c now
  refine ⟨applyOutcomes_bounded hw l, ?_, ?_, ?_, ?_, ?_, ?_⟩
  · rw [update_success_eq]
  · rw [update_success_eq]
    exact le_min hw.1.2 (by linarith)
  · rw [hfail]
  · rw [hfail]
    exact max_le hw.1.1 (by linarith)
  · rw [update_success_eq]
    exact scoreGet_ainsert_self _ _ _
  · rw [hfail]
    exact scoreGet_ainsert_self _ _ _

theorem C8_update_bounds_witness :
    (applyOutcomes (initWorker "0xa")
      [(TaskOutcome.SUCCESS, 0, 1, 2, 3), (TaskOutcome.TIMEOUT, 0, 0, 0, 4)]).bounded :=
  (C8_update_bounds (initWorker "0xa")
    ⟨by norm_num [initWorker], by simp [initWorker]⟩ _ 0 0 0 0).1

/-- C10 (implicit): `WorkerMemory.update` treats every non-SUCCESS outcome
(FAILURE, TIMEOUT, CANCELLED) identically as a failure: it produces the
same record as a FAILURE update — incrementing `failed_tasks`, applying
the clamped `-0.1` reliability and `-0.15` per-category nudges — and
leaves `total_earnings` and `average_completion_time` untouched, which
are updated only on SUCCESS. -/
theorem C10_nonsuccess_uniform (w : WorkerMemory) (o : TaskOutcome)
    (ho : o ≠ TaskOutcome.SUCCESS) (t : ℤ) (e c now : ℚ) :
    w.update o t e c now = w.update TaskOutcome.FAILURE t e c now ∧
    (w.update o t e c now).failed_tasks = w.failed_tasks + 1 ∧
    (w.update o t e c now).successful_tasks = w.successful_tasks ∧
    (w.update o t e c now).reliability_score = max 0 (w.reliability_score - 0.1) ∧
    scoreGet (w.update o t e c now).task_type_scores t
        = max 0 (scoreGet w.task_type_scores t - 0.15) ∧
    (w.update o t e c now).total_earnings = w.total_earnings ∧
    (w.update o t e c now).average_completion_time = w.average_completion_time ∧
    (w.update TaskOutcome.SUCCESS t e c now).total_earnings = w.total_earnings + e := by
  have h := update_nonsuccess_eq w o ho t e c now
  refine ⟨by rw [h, update_nonsuccess_eq w TaskOutcome.FAILURE (by decide)], ?_, ?_, ?_, ?_, ?_, ?_, ?_⟩
  · rw [h]
  · rw [h]
  · rw [h]
  · rw [h]
    exact scoreGet_ainsert_self _ _ _
  · rw [h]
  · rw [h]
  · rw [update_success_eq]

theorem C10_nonsuccess_uniform_witness :
    (initWorker "0xa").update TaskOutcome.TIMEOUT 2 5 6 7
      = (initWorker "0xa").update TaskOutcome.FAILURE 2 5 6 7 :=
  (C10_nonsuccess_uniform (initWorker "0xa") TaskOutcome.TIMEOUT (by decide) 2 5 6 7).1

/-! ### Decision engine: exploration decay, payment range, verification -/

theorem learn_exploration_rate (sl : StrategyLearner) (t : ℤ) (w : String) (p mp : ℚ)
    (s : Bool) :
    (sl.learn_from_outcome t w p mp s).exploration_rate =
      if sl.decisions_made > 100 ∧ sl.exploration_rate > 0.05 then
        sl.exploration_rate * 0.999
      else sl.exploration_rate := by
  by_cases hc : sl.decisions_made > 100 ∧ sl.exploration_rate > 0.05 <;>
    cases s <;> simp [StrategyLearner.learn_from_outcome, hc]

/-- C2 counterexample: a learner state past warm-up whose exploration rate
sits just above the floor (`0.05001`, `decisions_made = 101`) is decayed by
one `×0.999` step to `0.04995999`, strictly below `0.05` — refuting
"exploration_rate never drops below 0.05". -/
theorem C2_floor_counterexample :
    ({ initLearner 0.05001 0.1 with decisions_made := 101 } : StrategyLearner).decisions_made
        ≥ 100 ∧
    0.05 ≤ ({ initLearner 0.05001 0.1 with decisions_made := 101 } :
        StrategyLearner).exploration_rate ∧
    (({ initLearner 0.05001 0.1 with decisions_made := 101 } :
        StrategyLearner).learn_from_outcome 0 "0xa" 0.5 1 true).exploration_rate < 0.05 := by
  refine ⟨by norm_num [initLearner], by norm_num [initLearner], ?_⟩
  rw [learn_exploration_rate]
  norm_num [initLearner]

/-- C2 (amended): after ≥100 decisions each `learn_from_outcome` call
leaves `exploration_rate` unchanged or strictly lower; the decay fires
only while the rate exceeds 0.05, multiplying by 0.999, so the rate never
drops below `0.999 × 0.05 = 0.04995` (a single step may land just below
0.05, after which the rate never decreases again). -/
theorem C2_exploration_decay (sl : StrategyLearner) (h : sl.decisions_made ≥ 100)
    (t : ℤ) (w : String) (p mp : ℚ) (s : Bool) :
    (sl.learn_from_outcome t w p mp s).exploration_rate ≤ sl.exploration_rate ∧
    (0.04995 ≤ sl.exploration_rate →
      0.04995 ≤ (sl.learn_from_outcome t w p mp s).exploration_rate) ∧
    (sl.exploration_rate ≤ 0.05 →
      (sl.learn_from_outcome t w p mp s).exploration_rate = sl.exploration_rate) := by
  rw [learn_exploration_rate]
  by_cases hc : sl.decisions_made > 100 ∧ sl.exploration_rate > 0.05
  · rw [if_pos hc]
    obtain ⟨-, hrate⟩ := hc
    exact ⟨by linarith, fun _ => by linarith, fun hle => absurd hrate (not_lt.mpr hle)⟩
  · rw [if_neg hc]
    exact ⟨le_refl _, fun hge => hge, fun _ => rfl⟩

theorem C2_exploration_decay_witness :
    (({ initLearner 0.2 0.1 with decisions_made := 150 } :
        StrategyLearner).learn_from_outcome 0 "0xa" 0.5 1 true).exploration_rate
      ≤ ({ initLearner 0.2 0.1 with decisions_made := 150 } :
        StrategyLearner).exploration_rate :=
  (C2_exploration_decay _ (by norm_num [initLearner]) 0 "0xa" 0.5 1 true).1

/-- C3 counterexample: with reliability `0.5 ∈ [0,1]` and budget ceiling
`0.05`, `get_optimal_payment` returns `0.1`, which is strictly greater
than the ceiling — refuting "returns a value in `[0.1, budget_ceiling]`
for every budget ceiling". -/
theorem C3_range_counterexample :
    (0 : ℚ) ≤ 0.5 ∧ (0.5 : ℚ) ≤ 1 ∧
    0.05 < PaymentOptimizer.get_optimal_payment ⟨0.1, []⟩ 0 0.05 0.5 := by
  refine ⟨by norm_num, by norm_num, ?_⟩
  norm_num [PaymentOptimizer.get_optimal_payment, alookup]

/-- C3 (amended): for every budget ceiling `≥ 0.1`, every reliability in
`[0,1]` and every learned model whose base multiplier is the fixed 0.7,
`get_optimal_payment` lies in `[0.1, budget_ceiling]` and equals
`clamp(0.7·ceiling + (reliability − 0.5)·0.2·ceiling + learned_adjustment,
0.1, ceiling)`. -/
theorem C3_optimal_payment (opt : PaymentOptimizer) (t : ℤ) (c r : ℚ)
    (hc : 0.1 ≤ c) (hr0 : 0 ≤ r) (hr1 : r ≤ 1)
    (hbase : ((alookup opt.payment_models t).getD (0.7, 0)).1 = 0.7) :
    0.1 ≤ opt.get_optimal_payment t c r ∧
    opt.get_optimal_payment t c r ≤ c ∧
    opt.get_optimal_payment t c r =
      max 0.1 (min c (c * 0.7 + (r - 0.5) * 0.2 * c
        + ((alookup opt.payment_models t).getD (0.7, 0)).2)) := by
  simp only [PaymentOptimizer.get_optimal_payment]
  exact ⟨le_max_left _ _, max_le hc (min_le_left _ _), by rw [hbase]⟩

theorem C3_optimal_payment_witness :
    0.1 ≤ PaymentOptimizer.get_optimal_payment ⟨0.1, []⟩ 0 1 0.5 ∧
    PaymentOptimizer.get_optimal_payment ⟨0.1, []⟩ 0 1 0.5 ≤ 1 :=
  ⟨(C3_optimal_payment ⟨0.1, []⟩ 0 1 0.5 (by norm_num) (by norm_num) (by norm_num)
      (by norm_num [alookup])).1,
   (C3_optimal_payment ⟨0.1, []⟩ 0 1 0.5 (by norm_num) (by norm_num) (by norm_num)
      (by norm_num [alookup])).2.1⟩

/-- C9: the hybrid verification verdict follows the confidence-threshold
policy of `_verify_task`: advisory confidence ≥ 0.7 trusts the advisory
verdict outright; confidence in `[0.5, 0.7)` accepts only when advisory
and rule-based verdicts both accept; confidence < 0.5, or no advisory
opinion, falls back to the rule-based verdict alone. -/
theorem C9_hybrid_verdict (v : Bool) (conf : ℚ) (rule : Bool) :
    (0.7 ≤ conf → hybridVerdict (some (v, conf)) rule = v) ∧
    (0.5 ≤ conf → conf < 0.7 → hybridVerdict (some (v, conf)) rule = (v && rule)) ∧
    (conf < 0.5 → hybridVerdict (some (v, conf)) rule = rule) ∧
    hybridVerdict none rule = rule := by
  refine ⟨fun h => ?_, fun h1 h2 => ?_, fun h => ?_, rfl⟩
  · simp [hybridVerdict, ge_iff_le, h]
  · simp [hybridVerdict, ge_iff_le, h1, not_le.mpr h2]
  · simp [hybridVerdict, ge_iff_le, not_le.mpr h,
      not_le.mpr (h.trans (by norm_num : (0.5 : ℚ) < 0.7))]

theorem C9_hybrid_verdict_witness :
    hybridVerdict (some (true, 0.8)) false = true ∧
    hybridVerdict (some (true, 0.6)) false = false ∧
    hybridVerdict (some (true, 0.3)) false = false :=
  ⟨(C9_hybrid_verdict true 0.8 false).1 (by norm_num),
   (C9_hybrid_verdict true 0.6 false).2.1 (by norm_num) (by norm_num),
   (C9_hybrid_verdict true 0.3 false).2.2.1 (by norm_num)⟩

/-! ### Persistence and the coordinator's decision call -/

/-- C5: save-then-load does not reconstruct the saved state.  `json.dump`
stringifies the integer keys of each worker's `task_type_scores` and
`_load` rebuilds the worker with `WorkerMemory(**data)`, passing the
string keys through (unlike the task ids, which `_save`/`_load` convert
explicitly with `str`/`int`).  The reloaded worker's category-1 score is
therefore no longer found by integer lookup — `scoreGet` falls back to
the 0.5 default — and the reloaded record differs from the saved one. -/
theorem C5_roundtrip_drift :
    scoreGet sampleWorker.task_type_scores 1 = 0.6 ∧
    alookup (AgentMemoryState.load_file initialMemory
        (some (Except.ok sampleMemory.save))).workers "0xa"
      = some (saveWorker sampleWorker) ∧
    scoreGet (saveWorker sampleWorker).task_type_scores 1 = 0.5 ∧
    saveWorker sampleWorker ≠ sampleWorker := by
  refine ⟨rfl, rfl, rfl, fun h => ?_⟩
  have hscores := congrArg WorkerMemory.task_type_scores h
  simp [saveWorker, sampleWorker, initWorker, PyKey.save] at hscores

/-- C6: a corrupt durable store is not fatal.  `_load` catches every
exception (`except Exception: logger.error(...)`), so loading a malformed
`memory.json` leaves exactly the same fresh empty state as a missing file
and reports nothing to the caller — the function has no error channel at
all — and the agent proceeds with empty worker/task/metrics state. -/
theorem C6_corrupt_load_not_fatal :
    AgentMemoryState.load_file initialMemory
        (some (Except.error "Expecting value: line 1 column 1 - char 0")) = initialMemory ∧
    AgentMemoryState.load_file initialMemory none = initialMemory :=
  ⟨rfl, rfl⟩

/-- C1: the coordinator's decision call never completes.
`StrategyLearner.make_decision` declares only the parameters `task_id`,
`task_type`, `max_payment` and `available_workers`, while
`CoordinatorAgent._process_task` always supplies an additional
`ai_scores` keyword (bound to `None` when no advisory scores were
gathered).  Python's keyword binding therefore raises
`TypeError: unexpected keyword argument` on every decision attempt —
with or without advisory scores — and no Proposal is returned; the same
four keywords without `ai_scores` would bind fine. -/
theorem C1_decide_call_rejected :
    pyAcceptsKwargs make_decision_params coordinator_decide_kwargs = false ∧
    pyAcceptsKwargs make_decision_params
      ["task_id", "task_type", "max_payment", "available_workers"] = true := by
  decide

/-! ### Bandit selection lemmas -/

theorem initWorkers_step (st : BanditState) (w : String) (ws : List String) :
    initWorkers st (w :: ws) = initWorkers
      (if (alookup st.worker_pulls w).isSome then st
       else { st with worker_pulls := ainsert st.worker_pulls w 0
                      worker_rewards := ainsert st.worker_rewards w 0 }) ws := rfl

theorem initWorkers_const (st : BanditState) (ws : List String) :
    (initWorkers st ws).exploration_constant = st.exploration_constant ∧
    (initWorkers st ws).total_pulls = st.total_pulls := by
  induction ws generalizing st with
  | nil => exact ⟨rfl, rfl⟩
  | cons v vs ih =>
      rw [initWorkers_step]
      have hstep :
          ((if (alookup st.worker_pulls v).isSome then st
            else { st with worker_pulls := ainsert st.worker_pulls v 0
                           worker_rewards := ainsert st.worker_rewards v 0 }) :
            BanditState).exploration_constant = st.exploration_constant ∧
          ((if (alookup st.worker_pulls v).isSome then st
            else { st with worker_pulls := ainsert st.worker_pulls v 0
                           worker_rewards := ainsert st.worker_rewards v 0 }) :
            BanditState).total_pulls = st.total_pulls := by
        split <;> exact ⟨rfl, rfl⟩
      exact ⟨(ih _).1.trans hstep.1, (ih _).2.trans hstep.2⟩

theorem initWorkers_pulls (st : BanditState) (ws : List String) (w : String) :
    (alookup (initWorkers st ws).worker_pulls w).getD 0
      = (alookup st.worker_pulls w).getD 0 := by
  induction ws generalizing st with
  | nil => rfl
  | cons v vs ih =>
      rw [initWorkers_step]
      by_cases hv : (alookup st.worker_pulls v).isSome
      · rw [if_pos hv]
        exact ih st
      · rw [if_neg hv, ih]
        by_cases hw : w = v
        · subst hw
          have hnone : alookup st.worker_pulls w = none :=
            Option.not_isSome_iff_eq_none.mp hv
          rw [alookup_ainsert_self, hnone]
          rfl
        · rw [alookup_ainsert_ne _ _ _ _ hw]

theorem initWorkers_rewards (st : BanditState) (ws : List String) (w : String)
    (hsync : ∀ u, alookup st.worker_pulls u = none → alookup st.worker_rewards u = none) :
    (alookup (initWorkers st ws).worker_rewards w).getD 0
      = (alookup st.worker_rewards w).getD 0 := by
  induction ws generalizing st with
  | nil => rfl
  | cons v vs ih =>
      rw [initWorkers_step]
      by_cases hv : (alookup st.worker_pulls v).isSome
      · rw [if_pos hv]
        exact ih st hsync
      · rw [if_neg hv]
        have hnone : alookup st.worker_pulls v = none :=
          Option.not_isSome_iff_eq_none.mp hv
        have hrnone : alookup st.worker_rewards v = none := hsync v hnone
        have hsync' : ∀ u, alookup (ainsert st.worker_pulls v 0) u = none →
            alookup (ainsert st.worker_rewards v 0) u = none := by
          intro u hu
          by_cases huv : u = v
          · subst huv
            rw [alookup_ainsert_self] at hu
            cases hu
          · rw [alookup_ainsert_ne _ _ _ _ huv] at hu
            rw [alookup_ainsert_ne _ _ _ _ huv]
            exact hsync u hu
        rw [ih _ hsync']
        by_cases hw : w = v
        · subst hw
          rw [alookup_ainsert_self, hrnone]
          rfl
        · rw [alookup_ainsert_ne _ _ _ _ hw]

theorem ucbScore_eq_top_iff (st : BanditState) (mem : List (String × WorkerMemory))
    (t : ℤ) (w : String) :
    ucbScore st mem t w = ⊤ ↔ (alookup st.worker_pulls w).getD 0 = 0 := by
  simp only [ucbScore]
  by_cases h : (alookup st.worker_pulls w).getD 0 = 0
  · rw [if_pos h]
    exact iff_of_true rfl h
  · rw [if_neg h]
    exact iff_of_false WithTop.coe_ne_top h

theorem firstMax_acc_top (acc : String × WithTop ℝ) (l : List (String × WithTop ℝ))
    (h : acc.2 = ⊤) : firstMax acc l = acc := by
  induction l generalizing acc with
  | nil => rfl
  | cons x rest ih =>
      simp only [firstMax]
      rw [if_neg (by rw [h]; exact not_top_lt)]
      exact ih acc h

theorem firstMax_first_top (f : String → WithTop ℝ) (acc : String × WithTop ℝ)
    (hacc : acc.2 ≠ ⊤) (l : List String) (hex : ∃ v ∈ l, f v = ⊤) :
    ∃ i : Fin l.length,
      firstMax acc (l.map (fun v => (v, f v))) = (l.get i, ⊤) ∧
      f (l.get i) = ⊤ ∧
      ∀ j : Fin l.length, (j : ℕ) < (i : ℕ) → f (l.get j) ≠ ⊤ := by
  induction l generalizing acc with
  | nil => simp at hex
  | cons v vs ih =>
      simp only [List.map_cons, firstMax]
      by_cases hv : f v = ⊤
      · rw [if_pos (by rw [hv]; exact lt_top_iff_ne_top.mpr hacc)]
        refine ⟨⟨0, by simp⟩, ?_, hv, ?_⟩
        · rw [firstMax_acc_top (v, f v) _ hv, hv]
          rfl
        · intro j hj
          simp at hj
      · have hacc' : ((if acc.2 < f v then (v, f v) else acc) : String × WithTop ℝ).2 ≠ ⊤ := by
          split
          · exact hv
          · exact hacc
        have hex' : ∃ u ∈ vs, f u = ⊤ := by
          obtain ⟨u, hu, hfu⟩ := hex
          rcases List.mem_cons.mp hu with h | h
          · exact absurd (h ▸ hfu) hv
          · exact ⟨u, h, hfu⟩
        obtain ⟨i, h1, h2, h3⟩ := ih _ hacc' hex'
        refine ⟨⟨(i : ℕ) + 1, by simpa using i.isLt⟩, ?_, ?_, ?_⟩
        · simpa using h1
        · simpa using h2
        · intro j hj
          rcases j with ⟨jn, hjn⟩
          cases jn with
          | zero => simpa using hv
          | succ jm =>
              have hjm : jm < vs.length := by simpa using hjn
              have := h3 ⟨jm, hjm⟩ (by simpa using hj)
              simpa using this

/-- C4: whenever the eligible list contains a worker with zero prior
pulls, `select_worker` returns a zero-pull worker — never an
already-pulled one, regardless of accumulated rewards — and, since
Python's stable descending sort breaks ties by input order, the selected
worker is the earliest zero-pull entry: every strictly earlier entry has
nonzero pulls. -/
theorem C4_cold_start (st : BanditState) (mem : List (String × WorkerMemory)) (t : ℤ)
    (ws : List String)
    (hzero : ∃ v ∈ ws, (alookup st.worker_pulls v).getD 0 = 0) :
    ∃ i : Fin ws.length,
      (st.select_worker ws mem t).1.1 = some (ws.get i) ∧
      (alookup st.worker_pulls (ws.get i)).getD 0 = 0 ∧
      ∀ j : Fin ws.length, (j : ℕ) < (i : ℕ) →
        (alookup st.worker_pulls (ws.get j)).getD 0 ≠ 0 := by
  cases ws with
  | nil => simp at hzero
  | cons w vs =>
      have hpulls : ∀ u : String,
          (alookup (initWorkers { st with total_pulls := st.total_pulls + 1 }
            (w :: vs)).worker_pulls u).getD 0 = (alookup st.worker_pulls u).getD 0 :=
        fun u => initWorkers_pulls _ _ u
      have htop : ∀ u : String,
          ucbScore (initWorkers { st with total_pulls := st.total_pulls + 1 } (w :: vs))
              mem t u = ⊤ ↔ (alookup st.worker_pulls u).getD 0 = 0 := by
        intro u
        rw [ucbScore_eq_top_iff, hpulls]
      have hsel : (st.select_worker (w :: vs) mem t).1.1 =
          some (firstMax
            (w, ucbScore (initWorkers { st with total_pulls := st.total_pulls + 1 }
              (w :: vs)) mem t w)
            (vs.map (fun v => (v, ucbScore
              (initWorkers { st with total_pulls := st.total_pulls + 1 } (w :: vs))
              mem t v)))).1 := rfl
      by_cases hw : (alookup st.worker_pulls w).getD 0 = 0
      · refine ⟨⟨0, by simp⟩, ?_, hw, ?_⟩
        · rw [hsel, firstMax_acc_top _ _ ((htop w).mpr hw)]
          rfl
        · intro j hj
          simp at hj
      · obtain ⟨v0, hv0, hfv0⟩ := hzero
        have hv0vs : v0 ∈ vs := by
          rcases List.mem_cons.mp hv0 with h | h
          · exact absurd (h ▸ hfv0) hw
          · exact h
        obtain ⟨i, h1, h2, h3⟩ := firstMax_first_top
          (fun v => ucbScore (initWorkers { st with total_pulls := st.total_pulls + 1 }
            (w :: vs)) mem t v)
          (w, ucbScore (initWorkers { st with total_pulls := st.total_pulls + 1 }
            (w :: vs)) mem t w)
          (fun h => hw ((htop w).mp h)) vs ⟨v0, hv0vs, (htop v0).mpr hfv0⟩
        refine ⟨⟨(i : ℕ) + 1, by simpa using i.isLt⟩, ?_, ?_, ?_⟩
        · rw [hsel, h1]
          rfl
        · simpa using (htop _).mp h2
        · intro j hj
          rcases j with ⟨jn, hjn⟩
          cases jn with
          | zero => simpa using hw
          | succ jm =>
              have hjm : jm < vs.length := by simpa using hjn
              have hne := h3 ⟨jm, hjm⟩ (by simpa using hj)
              have : ¬ (alookup st.worker_pulls (vs.get ⟨jm, hjm⟩)).getD 0 = 0 :=
                fun hzz => hne ((htop _).mpr hzz)
              simpa using this

theorem C4_cold_start_witness :
    (c4Bandit.select_worker ["0xa", "0xb"] [] 0).1.1 = some "0xb" := by
  obtain ⟨i, h1, h2, h3⟩ :=
    C4_cold_start c4Bandit [] 0 ["0xa", "0xb"] ⟨"0xb", by simp, rfl⟩
  fin_cases i
  · simp [c4Bandit, alookup] at h2
  · exact h1

/-- C7 counterexample: `select_worker` is not stateless — a single call
on a nonempty list changes the `BanditState` (here the global pull
counter goes from 0 to 1 and a zero entry is created for the fresh
worker). -/
theorem C7_select_not_stateless :
    (initBandit.select_worker ["0xa"] [] 0).2 ≠ initBandit := by
  intro h
  have h1 : (initBandit.select_worker ["0xa"] [] 0).2.total_pulls = 1 := rfl
  rw [h] at h1
  exact absurd h1 (by decide)

/-- C7 (amended): each `select_worker` call on a nonempty eligible list
mutates the `BanditState`, but only by incrementing the global pull
counter by exactly one and creating zero-initialized entries for unseen
workers: the exploration constant and every worker's effective pull
count and cumulative reward (with the 0 default) are unchanged.  Because
the global counter feeds the UCB1 exploration bonus, a repeated
identical call can still return a different confidence. -/
theorem C7_select_state_effect (st : BanditState) (mem : List (String × WorkerMemory))
    (t : ℤ) (ws : List String) (hne : ws ≠ [])
    (hsync : ∀ u, alookup st.worker_pulls u = none → alookup st.worker_rewards u = none)
    (w : String) :
    (st.select_worker ws mem t).2.total_pulls = st.total_pulls + 1 ∧
    (st.select_worker ws mem t).2.exploration_constant = st.exploration_constant ∧
    (alookup (st.select_worker ws mem t).2.worker_pulls w).getD 0
        = (alookup st.worker_pulls w).getD 0 ∧
    (alookup (st.select_worker ws mem t).2.worker_rewards w).getD 0
        = (alookup st.worker_rewards w).getD 0 := by
  cases ws with
  | nil => exact absurd rfl hne
  | cons v vs =>
      have hstate : (st.select_worker (v :: vs) mem t).2 =
          initWorkers { st with total_pulls := st.total_pulls + 1 } (v :: vs) := rfl
      rw [hstate]
      exact ⟨(initWorkers_const _ _).2, (initWorkers_const _ _).1,
        initWorkers_pulls _ _ w, initWorkers_rewards _ _ w hsync⟩

theorem C7_select_state_effect_witness :
    (initBandit.select_worker ["0xa"] [] 0).2.total_pulls = initBandit.total_pulls + 1 :=
  (C7_select_state_effect initBandit [] 0 ["0xa"] (by simp) (fun _ _ => rfl) "0xa").1

end Aegis
